import Mathlib

set_option maxRecDepth 4000

/-! Verification of the parallel file search tool.

Shallow embedding conventions: Python strings are modelled as `List Char`;
Python `str.lower` is modelled by mapping `Char.toLower` (the ASCII
fragment exercised by the program), `str.strip` by dropping whitespace at
both ends, and `str.find(sub, start)` by a left-to-right scan returning
the first occurrence position at or after `start` (`none` models Python's
`-1`).  The filesystem is a function from paths to `Except` values:
`.ok lines` is a readable file split into lines, `.error e` models a
raised `IOError` whose `str(e)` is `e`. -/

def lower (l : List Char) : List Char := l.map Char.toLower

/-- Model of Python `str.strip()`: drop whitespace from both ends. -/
def pyStrip (l : List Char) : List Char :=
  ((l.dropWhile Char.isWhitespace).reverse.dropWhile Char.isWhitespace).reverse

/-- `occursAt k l i`: the pattern `k` occurs in `l` at position `i`. -/
def occursAt (k l : List Char) (i : Nat) : Bool := k.isPrefixOf (l.drop i)

/-- Model of Python `l.find(k, s)`: try positions `s, s+1, ...`; the
countdown argument bounds how many positions are still to be tried. -/
def pyFindAux (k l : List Char) : Nat → Nat → Option Nat
  | _, 0 => none
  | s, n + 1 => if occursAt k l s then some s else pyFindAux k l (s + 1) n

def pyFind (k l : List Char) (s : Nat) : Option Nat :=
  pyFindAux k l s (l.length + 1 - s)

/-- One recorded occurrence.  The source
(`clean_code/search_engine.py`, `ThreadSafeSearchEngine.search_file`)
appends the string `"Line {line_num}: {line.strip()} (Position: {match_idx})"`;
we keep its three data fields. -/
structure MatchRec where
  lineNumber : Nat
  text : List Char
  position : Nat
deriving DecidableEq, Repr

/-- The inner while-loop of `ThreadSafeSearchEngine.search_file`
(`clean_code/search_engine.py`, lines 28-32): repeatedly `find` the lowered
keyword in the lowered line from `start_idx`, record a match, and resume at
`match_idx + len(keyword)`.  `fuel` bounds the number of loop iterations;
`none` means the loop did not finish within `fuel` iterations. -/
def scanLineAux (n : Nat) (kLow lLow text : List Char) : Nat → Nat → Option (List MatchRec)
  | 0, s =>
    match pyFind kLow lLow s with
    | none => some []
    | some _ => none
  | fuel + 1, s =>
    match pyFind kLow lLow s with
    | none => some []
    | some i =>
      (scanLineAux n kLow lLow text fuel (i + kLow.length)).map
        (fun rest => ⟨n, text, i⟩ :: rest)

/-- The body of `search_file`'s per-line loop: scan one line (line number
`n`) with the already lowered keyword `kLow`.  The fuel `line.length + 1`
is enough for every terminating run (proved below). -/
def searchLine (n : Nat) (kLow line : List Char) : Option (List MatchRec) :=
  scanLineAux n kLow (lower line) (pyStrip line) (line.length + 1) 0

/-- The `for line_num, line in enumerate(file, start=1)` loop of
`search_file`, accumulating the matches of all lines in order. -/
def searchLinesAux (kLow : List Char) : Nat → List (List Char) → Option (List MatchRec)
  | _, [] => some []
  | n, line :: rest =>
    match searchLine n kLow line, searchLinesAux kLow (n + 1) rest with
    | some ms, some rest' => some (ms ++ rest')
    | _, _ => none

/-- `ThreadSafeSearchEngine.search_file` (`clean_code/search_engine.py`):
lowers the keyword once, scans every line, and returns `matches if matches
else None`; a caught `IOError`/`PermissionError` also yields `None`.
The outer `Option` is the fuel bound of the scan loop (`none` = the loop
would not terminate, which happens exactly for the empty keyword). -/
def search_file (fs : String → Except String (List (List Char)))
    (filepath : String) (keyword : List Char) : Option (Option (List MatchRec)) :=
  match fs filepath with
  | .error _ => some none
  | .ok lines =>
    (searchLinesAux (lower keyword) 1 lines).map
      (fun ms => if ms = [] then none else some ms)

/-- `ThreadSafeSearchEngine.perform_search`: `results or []`. -/
def perform_search (fs : String → Except String (List (List Char)))
    (filepath : String) (keyword : List Char) : Option (List MatchRec) :=
  (search_file fs filepath keyword).map (fun r => r.getD [])

/-- The result dictionary built by `SearchThread.run`
(`clean_code/search_thread.py`, lines 25-31). -/
structure CleanRecord where
  window_id : Nat
  filepath : String
  results : List MatchRec
  match_count : Nat
deriving DecidableEq, Repr

/-- `SearchThread.run` (`clean_code/search_thread.py`): performs the search
and emits one result dictionary with `match_count = len(results)`. -/
def cleanThreadRun (fs : String → Except String (List (List Char)))
    (window_id : Nat) (filepath : String) (keyword : List Char) : Option CleanRecord :=
  (perform_search fs filepath keyword).map
    (fun rs => ⟨window_id, filepath, rs, rs.length⟩)

/-- Model of Python `l.count(k)`: number of non-overlapping occurrences,
scanning left to right; the third argument counts positions still inside
the previous match. -/
def pyCountAux (k : List Char) : List Char → Nat → Nat
  | [], skip => if skip = 0 && k.isPrefixOf [] then 1 else 0
  | _ :: rest, skip + 1 => pyCountAux k rest skip
  | c :: rest, 0 =>
    if k.isPrefixOf (c :: rest) then 1 + pyCountAux k rest (k.length - 1)
    else pyCountAux k rest 0

def pyCount (k l : List Char) : Nat := pyCountAux k l 0

/-- The result dictionary built by the `SearchThread.run` variant in
`src/main.py` (lines 24-67).  `match_count` is `none` when the dictionary is
built without a `'match_count'` key (the error path, lines 60-66). -/
structure MainRecord where
  window_id : Nat
  filepath : String
  matchList : List (List Char)
  match_count : Option Nat
  error : Option String
deriving DecidableEq, Repr

/-- The per-line loop of `src/main.py` `SearchThread.run` (lines 36-40):
count occurrences with `line.lower().count(keyword.lower())`; when positive,
add the count to `match_count` and append the stripped line to `matches`. -/
def mainScan (kLow : List Char) : List (List Char) → List (List Char) × Nat
  | [] => ([], 0)
  | line :: rest =>
    let occurrences := pyCount kLow (lower line)
    let r := mainScan kLow rest
    if occurrences > 0 then (pyStrip line :: r.1, occurrences + r.2) else r

/-- `SearchThread.run` of `src/main.py` (lines 24-67): on success emits a
dictionary with `matches`, total `match_count` and no `error` key; on a
read failure emits `matches = []`, `error = str(e)`, and no `'match_count'`
key at all (modelled as `match_count = none`). -/
def mainThreadRun (fs : String → Except String (List (List Char)))
    (filepath : String) (keyword : List Char) (window_id : Nat) : MainRecord :=
  match fs filepath with
  | .ok lines =>
    let r := mainScan (lower keyword) lines
    ⟨window_id, filepath, r.1, some r.2, none⟩
  | .error e => ⟨window_id, filepath, [], none, some e⟩

/-- `FileSearchApp.validate_search_parameters`
(`clean_code/file_search_app.py`, lines 203-217): the stripped keyword must
be non-empty and the `file_paths` list must be non-empty. -/
def validate_search_parameters (file_paths : List String) (keywordRaw : List Char) : Bool :=
  !(pyStrip keywordRaw).isEmpty && !file_paths.isEmpty

/-- The mutable state of `ResultAggregationWindow`
(`clean_code/result_aggregation_window.py`): `reports_built` counts the
calls to `show_aggregated_results` (the aggregation trigger). -/
structure ResultAggregationWindow where
  total_windows : Nat
  completed_searches : Nat
  all_results : List CleanRecord
  reports_built : Nat
deriving DecidableEq, Repr

/-- `ResultAggregationWindow.__init__(total_windows)`. -/
def initWindow (total_windows : Nat) : ResultAggregationWindow :=
  ⟨total_windows, 0, [], 0⟩

/-- `ResultAggregationWindow.add_search_result` (lines 48-57): append the
record, increment `completed_searches`, and when it equals `total_windows`
call `show_aggregated_results`. -/
def add_search_result (w : ResultAggregationWindow) (r : CleanRecord) : ResultAggregationWindow :=
  let completed := w.completed_searches + 1
  let results := w.all_results ++ [r]
  if completed = w.total_windows then
    ⟨w.total_windows, completed, results, w.reports_built + 1⟩
  else
    ⟨w.total_windows, completed, results, w.reports_built⟩

/-- `FileSearchApp.initialize_search_threads`
(`clean_code/file_search_app.py`, lines 226-240): `for i, filepath in
enumerate(self.file_paths): if filepath: start SearchThread(i+1, ...)`.
Returns the one record each dispatched worker eventually emits. -/
def dispatchAux (fs : String → Except String (List (List Char)))
    (keyword : List Char) : Nat → List String → Option (List CleanRecord)
  | _, [] => some []
  | i, fp :: rest =>
    if fp = "" then dispatchAux fs keyword (i + 1) rest
    else
      match cleanThreadRun fs (i + 1) fp keyword, dispatchAux fs keyword (i + 1) rest with
      | some r, some rs => some (r :: rs)
      | _, _ => none

def initialize_search_threads (fs : String → Except String (List (List Char)))
    (file_paths : List String) (keyword : List Char) : Option (List CleanRecord) :=
  dispatchAux fs keyword 0 file_paths

/-- Number of worker threads started by one button press: zero when
validation fails, otherwise one per non-empty path. -/
def workersLaunched (file_paths : List String) (keywordRaw : List Char) : Nat :=
  if validate_search_parameters file_paths keywordRaw then
    (file_paths.filter (fun fp => decide (fp ≠ ""))).length
  else 0

/-- `FileSearchApp.start_parallel_search`
(`clean_code/file_search_app.py`, lines 183-201): validate, create the
aggregation window with `total_windows = len(self.file_paths)`, dispatch
the workers, and let their results arrive in some order `arrival`
(constrained to a permutation of the dispatched records in the theorems
below).  `none` means validation failed and nothing was started. -/
def start_parallel_search (fs : String → Except String (List (List Char)))
    (file_paths : List String) (keywordRaw : List Char)
    (arrival : List CleanRecord) : Option ResultAggregationWindow :=
  if validate_search_parameters file_paths keywordRaw then
    some (arrival.foldl add_search_result (initWindow file_paths.length))
  else none

/-- Number of aggregate reports a session delivers after the arrivals in
`arrival` have been processed. -/
def reportsDelivered (fs : String → Except String (List (List Char)))
    (file_paths : List String) (keywordRaw : List Char)
    (arrival : List CleanRecord) : Nat :=
  match start_parallel_search fs file_paths keywordRaw arrival with
  | none => 0
  | some w => w.reports_built

/-- Modelled from the spec's occurrence-mode description (spec 4.1): scan
the lowered line left to right; a positive `skip` means the position is
still inside the previous match, otherwise test for an occurrence, and
after a match at `p` resume scanning at `p + k.length`.  Returns the
recorded positions. -/
def greedyAux (k : List Char) : List Char → Nat → Nat → List Nat
  | [], _, _ => []
  | _ :: rest, p, skip + 1 => greedyAux k rest (p + 1) skip
  | c :: rest, p, 0 =>
    if k.isPrefixOf (c :: rest) then p :: greedyAux k rest (p + 1) (k.length - 1)
    else greedyAux k rest (p + 1) 0

/-- Spec-side matches of one line: one record per non-overlapping
case-insensitive occurrence, left to right. -/
def greedyMatches (n : Nat) (k line : List Char) : List MatchRec :=
  (greedyAux (lower k) (lower line) 0 0).map (fun i => ⟨n, pyStrip line, i⟩)

/-- Spec-side matches of a whole file, lines numbered from `n`. -/
def greedyFileMatches (k : List Char) : Nat → List (List Char) → List MatchRec
  | _, [] => []
  | n, line :: rest => greedyMatches n k line ++ greedyFileMatches k (n + 1) rest

/-- Modelled from the spec (4.1): the same per-file scan as
`searchLinesAux`, but lower-casing the keyword inside the loop, once per
line, instead of hoisting it outside the loop; the spec calls hoisting an
optimization and not a correctness requirement. -/
def searchLinesPerLine (keyword : List Char) : Nat → List (List Char) → Option (List MatchRec)
  | _, [] => some []
  | n, line :: rest =>
    match searchLine n (lower keyword) line, searchLinesPerLine keyword (n + 1) rest with
    | some ms, some rest' => some (ms ++ rest')
    | _, _ => none

/-- A filesystem with a single one-line file `"aXaXa"`. -/
def fsAXaXa : String → Except String (List (List Char)) :=
  fun _ => .ok [['a', 'X', 'a', 'X', 'a']]

/-- A filesystem with a single one-line file `"Hello WORLD"`. -/
def fsHello : String → Except String (List (List Char)) :=
  fun _ => .ok [['H', 'e', 'l', 'l', 'o', ' ', 'W', 'O', 'R', 'L', 'D']]

/-- A filesystem where every read raises. -/
def fsErr : String → Except String (List (List Char)) :=
  fun _ => .error "No such file or directory"

/-- A filesystem with a single one-line file `"aa"`. -/
def fsAA : String → Except String (List (List Char)) :=
  fun _ => .ok [['a', 'a']]

/-- A filesystem with a single one-line file `"a"`. -/
def fsSingleA : String → Except String (List (List Char)) :=
  fun _ => .ok [['a']]

/-! ### Helper lemmas about occurrences and `pyFind` -/

lemma isPrefixOf_nil_iff {k : List Char} : k.isPrefixOf [] = true ↔ k = [] := by
  cases k <;> simp

lemma isPrefixOf_length {k : List Char} :
    ∀ {l : List Char}, k.isPrefixOf l = true → k.length ≤ l.length := by
  induction k with
  | nil => intro l _; simp
  | cons a k ih =>
    intro l h
    cases l with
    | nil => simp at h
    | cons b l =>
      rw [List.isPrefixOf_cons₂, Bool.and_eq_true] at h
      simpa using ih h.2

lemma occursAt_length {k l : List Char} {i : Nat} (hk : k ≠ [])
    (h : occursAt k l i = true) : i + k.length ≤ l.length := by
  have h1 : k.length ≤ (l.drop i).length := isPrefixOf_length h
  rw [List.length_drop] at h1
  have hkpos : 0 < k.length := List.length_pos.mpr hk
  omega

lemma occursAt_of_le_length {k l : List Char} {i : Nat} (hk : k ≠ [])
    (hi : l.length ≤ i) : occursAt k l i = false := by
  have hd : l.drop i = [] := List.drop_eq_nil_of_le hi
  rw [occursAt, hd]
  cases k with
  | nil => exact absurd rfl hk
  | cons a k => rfl

lemma nil_occursAt (l : List Char) (i : Nat) : occursAt [] l i = true := by
  simp [occursAt]

lemma pyFindAux_some {k l : List Char} :
    ∀ cnt s i, pyFindAux k l s cnt = some i →
      s ≤ i ∧ occursAt k l i = true ∧ ∀ j, s ≤ j → j < i → occursAt k l j = false := by
  intro cnt
  induction cnt with
  | zero => intro s i h; exact absurd h (by simp [pyFindAux])
  | succ n ih =>
    intro s i h
    rw [pyFindAux] at h
    by_cases hc : occursAt k l s = true
    · rw [if_pos hc] at h
      injection h with h
      subst h
      exact ⟨Nat.le_refl _, hc, fun j h1 h2 => by omega⟩
    · rw [if_neg hc] at h
      obtain ⟨h1, h2, h3⟩ := ih (s + 1) i h
      refine ⟨by omega, h2, ?_⟩
      intro j hj1 hj2
      rcases Nat.eq_or_lt_of_le hj1 with rfl | hlt
      · simpa using hc
      · exact h3 j hlt hj2

lemma pyFindAux_none {k l : List Char} :
    ∀ cnt s, pyFindAux k l s cnt = none →
      ∀ j, s ≤ j → j < s + cnt → occursAt k l j = false := by
  intro cnt
  induction cnt with
  | zero => intro s _ j h1 h2; omega
  | succ n ih =>
    intro s h j h1 h2
    rw [pyFindAux] at h
    by_cases hc : occursAt k l s = true
    · rw [if_pos hc] at h; exact absurd h (by simp)
    · rw [if_neg hc] at h
      rcases Nat.eq_or_lt_of_le h1 with rfl | hlt
      · simpa using hc
      · exact ih (s + 1) h j hlt (by omega)

lemma pyFind_some {k l : List Char} {s i : Nat} (h : pyFind k l s = some i) :
    s ≤ i ∧ occursAt k l i = true ∧ ∀ j, s ≤ j → j < i → occursAt k l j = false := by
  rw [pyFind] at h
  exact pyFindAux_some _ _ _ h

lemma pyFind_none {k l : List Char} {s : Nat} (hk : k ≠ []) (h : pyFind k l s = none) :
    ∀ j, s ≤ j → occursAt k l j = false := by
  intro j hj
  by_cases hjl : l.length ≤ j
  · exact occursAt_of_le_length hk hjl
  · rw [pyFind] at h
    exact pyFindAux_none _ _ h j hj (by omega)

lemma pyFind_nil {l : List Char} {s : Nat} (hs : s ≤ l.length) : pyFind [] l s = some s := by
  rw [pyFind]
  have hcnt : l.length + 1 - s = (l.length - s) + 1 := by omega
  rw [hcnt, pyFindAux, if_pos (nil_occursAt l s)]

lemma pyFind_of_gt_length {k l : List Char} {s : Nat} (hs : l.length < s) :
    pyFind k l s = none := by
  rw [pyFind]
  have hcnt : l.length + 1 - s = 0 := by omega
  rw [hcnt]
  rfl

/-! ### The scan loop versus the greedy occurrence specification -/

lemma greedyAux_skip (k : List Char) :
    ∀ (l : List Char) (p d : Nat), greedyAux k l p d = greedyAux k (l.drop d) (p + d) 0 := by
  intro l
  induction l with
  | nil => intro p d; simp [greedyAux]
  | cons c rest ih =>
    intro p d
    cases d with
    | zero => simp
    | succ d' =>
      have h1 : greedyAux k (c :: rest) p (d' + 1) = greedyAux k rest (p + 1) d' := rfl
      rw [h1, ih (p + 1) d', List.drop_succ_cons]
      have h2 : p + 1 + d' = p + (d' + 1) := by omega
      rw [h2]

lemma greedyAux_nil_of_none {k : List Char} :
    ∀ (l' : List Char) (p : Nat),
      (∀ j, k.isPrefixOf (l'.drop j) = false) → greedyAux k l' p 0 = [] := by
  intro l'
  induction l' with
  | nil => intro p h; simp [greedyAux]
  | cons c rest ih =>
    intro p h
    have h0 : k.isPrefixOf (c :: rest) = false := by simpa using h 0
    rw [greedyAux, if_neg (by simp [h0])]
    exact ih (p + 1) (fun j => by simpa using h (j + 1))

lemma greedyAux_step {k l : List Char} (hk : k ≠ []) :
    ∀ d s i, i - s = d → s ≤ i → occursAt k l i = true →
      (∀ j, s ≤ j → j < i → occursAt k l j = false) →
      greedyAux k (l.drop s) s 0 =
        i :: greedyAux k (l.drop (i + k.length)) (i + k.length) 0 := by
  intro d
  induction d with
  | zero =>
    intro s i hd hs hocc hmin
    have hsi : s = i := by omega
    subst hsi
    have hne : l.drop s ≠ [] := by
      intro hnil
      rw [occursAt, hnil] at hocc
      exact hk (isPrefixOf_nil_iff.mp hocc)
    obtain ⟨c, rest, hcr⟩ := List.exists_cons_of_ne_nil hne
    have hpre : k.isPrefixOf (c :: rest) = true := by
      rw [occursAt, hcr] at hocc; exact hocc
    have hrest : rest = l.drop (s + 1) := by
      have ht := List.tail_drop l s
      rw [hcr] at ht
      simpa using ht
    have hkpos : 0 < k.length := List.length_pos.mpr hk
    rw [hcr, greedyAux, if_pos hpre]
    congr 1
    rw [greedyAux_skip, hrest, List.drop_drop]
    have h1 : s + 1 + (k.length - 1) = s + k.length := by omega
    rw [h1]
  | succ d' ih =>
    intro s i hd hs hocc hmin
    have hslt : s < i := by omega
    have hne : l.drop s ≠ [] := by
      intro hnil
      have hlen : l.length ≤ s := List.drop_eq_nil_iff.mp hnil
      rw [occursAt_of_le_length hk (by omega : l.length ≤ i)] at hocc
      exact Bool.false_ne_true hocc
    obtain ⟨c, rest, hcr⟩ := List.exists_cons_of_ne_nil hne
    have hpre : k.isPrefixOf (c :: rest) = false := by
      have hm := hmin s (Nat.le_refl _) hslt
      rw [occursAt, hcr] at hm; exact hm
    have hrest : rest = l.drop (s + 1) := by
      have ht := List.tail_drop l s
      rw [hcr] at ht
      simpa using ht
    rw [hcr, greedyAux, if_neg (by simp [hpre]), hrest]
    exact ih (s + 1) i (by omega) (by omega) hocc (fun j h1 h2 => hmin j (by omega) h2)

lemma scanLineAux_eq_greedy {n : Nat} {k l t : List Char} (hk : k ≠ []) :
    ∀ fuel s, l.length + 1 ≤ fuel + s →
      scanLineAux n k l t fuel s =
        some ((greedyAux k (l.drop s) s 0).map (fun i => ⟨n, t, i⟩)) := by
  intro fuel
  induction fuel with
  | zero =>
    intro s hfs
    have hfind : pyFind k l s = none := pyFind_of_gt_length (by omega)
    have hdrop : l.drop s = [] := List.drop_eq_nil_of_le (by omega)
    rw [scanLineAux, hfind, hdrop]
    simp [greedyAux]
  | succ fuel ih =>
    intro s hfs
    cases hfind : pyFind k l s with
    | none =>
      rw [scanLineAux, hfind]
      have hnone := pyFind_none hk hfind
      rw [greedyAux_nil_of_none (l.drop s) s ?_]
      · rfl
      · intro j
        rw [List.drop_drop]
        exact hnone (s + j) (by omega)
    | some i =>
      obtain ⟨hsi, hocc, hmin⟩ := pyFind_some hfind
      have hlen : i + k.length ≤ l.length := occursAt_length hk hocc
      have hkpos : 0 < k.length := List.length_pos.mpr hk
      simp only [scanLineAux, hfind]
      rw [ih (i + k.length) (by omega),
        greedyAux_step hk (i - s) s i rfl hsi hocc hmin]
      rfl

lemma scanLineAux_nil_keyword {n : Nat} {l t : List Char} :
    ∀ fuel s, s ≤ l.length → scanLineAux n [] l t fuel s = none := by
  intro fuel
  induction fuel with
  | zero => intro s hs; rw [scanLineAux, pyFind_nil hs]
  | succ fuel ih =>
    intro s hs
    simp only [scanLineAux, pyFind_nil hs]
    have hlen : s + List.length ([] : List Char) = s := rfl
    rw [hlen, ih s hs]
    rfl

lemma scanLineAux_sound {n : Nat} {k l t : List Char} :
    ∀ fuel s recs, scanLineAux n k l t fuel s = some recs →
      ∀ r ∈ recs, occursAt k l r.position = true ∧ r.text = t ∧ s ≤ r.position := by
  intro fuel
  induction fuel with
  | zero =>
    intro s recs h
    cases hfind : pyFind k l s with
    | none =>
      rw [scanLineAux, hfind] at h
      injection h with h
      subst h
      intro r hr
      simp at hr
    | some i => rw [scanLineAux, hfind] at h; exact absurd h (by simp)
  | succ fuel ih =>
    intro s recs h
    cases hfind : pyFind k l s with
    | none =>
      rw [scanLineAux, hfind] at h
      injection h with h
      subst h
      intro r hr
      simp at hr
    | some i =>
      simp only [scanLineAux, hfind] at h
      cases hrec : scanLineAux n k l t fuel (i + k.length) with
      | none => rw [hrec] at h; exact absurd h (by simp)
      | some rest =>
        rw [hrec] at h
        simp only [Option.map_some'] at h
        injection h with h
        subst h
        obtain ⟨hsi, hocc, _⟩ := pyFind_some hfind
        intro r hr
        rcases List.mem_cons.mp hr with rfl | hr'
        · exact ⟨hocc, rfl, hsi⟩
        · obtain ⟨h1, h2, h3⟩ := ih _ _ hrec r hr'
          exact ⟨h1, h2, by omega⟩

lemma scanLineAux_bound {n : Nat} {k l t : List Char} (hk : k ≠ []) :
    ∀ fuel s recs, scanLineAux n k l t fuel s = some recs →
      recs = [] ∨ recs.length + s ≤ l.length := by
  intro fuel
  induction fuel with
  | zero =>
    intro s recs h
    cases hfind : pyFind k l s with
    | none =>
      rw [scanLineAux, hfind] at h
      injection h with h
      exact Or.inl h.symm
    | some i => rw [scanLineAux, hfind] at h; exact absurd h (by simp)
  | succ fuel ih =>
    intro s recs h
    cases hfind : pyFind k l s with
    | none =>
      rw [scanLineAux, hfind] at h
      injection h with h
      exact Or.inl h.symm
    | some i =>
      simp only [scanLineAux, hfind] at h
      cases hrec : scanLineAux n k l t fuel (i + k.length) with
      | none => rw [hrec] at h; exact absurd h (by simp)
      | some rest =>
        rw [hrec] at h
        simp only [Option.map_some'] at h
        injection h with h
        subst h
        obtain ⟨hsi, hocc, _⟩ := pyFind_some hfind
        have hlen : i + k.length ≤ l.length := occursAt_length hk hocc
        have hkpos : 0 < k.length := List.length_pos.mpr hk
        rcases ih _ _ hrec with hrest | hrest
        · subst hrest
          right
          simp
          omega
        · right
          simp only [List.length_cons]
          omega

lemma lower_length (l : List Char) : (lower l).length = l.length := by
  simp [lower]

lemma lower_ne_nil {k : List Char} (hk : k ≠ []) : lower k ≠ [] := by
  simp [lower, hk]

lemma searchLine_eq_greedy {k : List Char} (hk : k ≠ []) (n : Nat) (line : List Char) :
    searchLine n (lower k) line = some (greedyMatches n k line) := by
  rw [searchLine, greedyMatches]
  have h := scanLineAux_eq_greedy (n := n) (t := pyStrip line)
    (lower_ne_nil hk) (line.length + 1) 0 (by rw [lower_length])
  simpa using h

lemma searchLinesAux_eq_greedy {k : List Char} (hk : k ≠ []) :
    ∀ (n : Nat) (lines : List (List Char)),
      searchLinesAux (lower k) n lines = some (greedyFileMatches k n lines) := by
  intro n lines
  induction lines generalizing n with
  | nil => rfl
  | cons line rest ih =>
    rw [searchLinesAux, searchLine_eq_greedy hk n line, ih (n + 1)]
    rfl

/-! ### Helper lemmas about the aggregation session -/

lemma add_search_result_fields (w : ResultAggregationWindow) (r : CleanRecord) :
    (add_search_result w r).total_windows = w.total_windows ∧
    (add_search_result w r).completed_searches = w.completed_searches + 1 ∧
    (add_search_result w r).all_results = w.all_results ++ [r] ∧
    (add_search_result w r).reports_built =
      w.reports_built + (if w.completed_searches + 1 = w.total_windows then 1 else 0) := by
  simp only [add_search_result]
  split_ifs with h <;> simp

lemma foldl_add_search_result :
    ∀ (l : List CleanRecord) (w : ResultAggregationWindow),
      (l.foldl add_search_result w).total_windows = w.total_windows ∧
      (l.foldl add_search_result w).completed_searches = w.completed_searches + l.length ∧
      (l.foldl add_search_result w).all_results.length = w.all_results.length + l.length ∧
      (l.foldl add_search_result w).reports_built =
        w.reports_built +
          (if w.completed_searches < w.total_windows ∧
              w.total_windows ≤ w.completed_searches + l.length then 1 else 0) := by
  intro l
  induction l with
  | nil =>
    intro w
    refine ⟨rfl, by simp, by simp, ?_⟩
    simp only [List.foldl_nil, List.length_nil]
    split_ifs with h
    · omega
    · omega
  | cons r rest ih =>
    intro w
    obtain ⟨haT, haC, haA, haR⟩ := add_search_result_fields w r
    obtain ⟨hT, hC, hA, hR⟩ := ih (add_search_result w r)
    simp only [List.foldl_cons, List.length_cons]
    refine ⟨by rw [hT, haT], ?_, ?_, ?_⟩
    · rw [hC, haC]; omega
    · rw [hA, haA]; simp; omega
    · rw [hR, haR, haC, haT]
      split_ifs <;> omega

lemma dispatchAux_length {fs : String → Except String (List (List Char))}
    {kw : List Char} :
    ∀ (fps : List String) (i : Nat) (recs : List CleanRecord),
      dispatchAux fs kw i fps = some recs →
      recs.length = (fps.filter (fun fp => decide (fp ≠ ""))).length := by
  intro fps
  induction fps with
  | nil =>
    intro i recs h
    rw [dispatchAux] at h
    injection h with h
    subst h
    rfl
  | cons fp rest ih =>
    intro i recs h
    rw [dispatchAux] at h
    by_cases hfp : fp = ""
    · rw [if_pos hfp] at h
      rw [List.filter_cons, if_neg (by simp [hfp])]
      exact ih _ _ h
    · rw [if_neg hfp] at h
      cases hrun : cleanThreadRun fs (i + 1) fp kw with
      | none => rw [hrun] at h; exact absurd h (by simp)
      | some r =>
        cases hrest : dispatchAux fs kw (i + 1) rest with
        | none => rw [hrun, hrest] at h; exact absurd h (by simp)
        | some rs =>
          rw [hrun, hrest] at h
          injection h with h
          subst h
          rw [List.filter_cons, if_pos (by simp [hfp])]
          simp only [List.length_cons]
          rw [ih _ _ hrest]

lemma validate_eq_true_iff {fps : List String} {kw : List Char} :
    validate_search_parameters fps kw = true ↔ pyStrip kw ≠ [] ∧ fps ≠ [] := by
  rw [validate_search_parameters]
  simp

lemma validate_eq_false_of {fps : List String} {kw : List Char}
    (h : pyStrip kw = [] ∨ fps = []) : validate_search_parameters fps kw = false := by
  rw [validate_search_parameters]
  rcases h with h | h <;> simp [h]

/-! ### Claims about the matcher -/

/-- Claim C2 (confirmed): for every file content and every non-empty
keyword the matcher records one MatchLine per non-overlapping
case-insensitive occurrence of the keyword on each line, scanning left to
right and resuming after a match at offset i at position i + len(keyword)
(`greedyFileMatches` is exactly that specification); in particular a
single line "aXaXa" with keyword "a" yields exactly 3 matches at offsets
0, 2 and 4. -/
theorem claim_C2_occurrence_mode :
    (∀ (k : List Char) (n : Nat) (lines : List (List Char)), k ≠ [] →
        searchLinesAux (lower k) n lines = some (greedyFileMatches k n lines)) ∧
      search_file fsAXaXa "f" ['a'] =
        some (some [⟨1, ['a', 'X', 'a', 'X', 'a'], 0⟩, ⟨1, ['a', 'X', 'a', 'X', 'a'], 2⟩,
          ⟨1, ['a', 'X', 'a', 'X', 'a'], 4⟩]) := by
  constructor
  · intro k n lines hk
    exact searchLinesAux_eq_greedy hk n lines
  · decide

/-- Witness for C2: the keyword "a" on the single line "aXaXa". -/
theorem claim_C2_occurrence_mode_witness :
    searchLinesAux (lower ['a']) 1 [['a', 'X', 'a', 'X', 'a']] =
      some [⟨1, ['a', 'X', 'a', 'X', 'a'], 0⟩, ⟨1, ['a', 'X', 'a', 'X', 'a'], 2⟩,
        ⟨1, ['a', 'X', 'a', 'X', 'a'], 4⟩] :=
  (claim_C2_occurrence_mode.1 ['a'] 1 [['a', 'X', 'a', 'X', 'a']] (by decide)).trans (by decide)

/-- Claim C9 (confirmed): the per-line scan loop terminates (some fuel
suffices) exactly when the keyword is non-empty, and the number of
occurrences recorded for a line is bounded by the line length; with an
empty keyword the loop advances by 0 each iteration and exhausts every
fuel bound. -/
theorem claim_C9_termination (n : Nat) (k line : List Char) :
    ((∃ fuel, (scanLineAux n k (lower line) (pyStrip line) fuel 0).isSome) ↔ k ≠ []) ∧
      (∀ recs, searchLine n k line = some recs → recs.length ≤ line.length) := by
  constructor
  · constructor
    · rintro ⟨fuel, hfuel⟩
      intro hkeq
      subst hkeq
      rw [scanLineAux_nil_keyword fuel 0 (Nat.zero_le _)] at hfuel
      simp at hfuel
    · intro hk
      refine ⟨line.length + 1, ?_⟩
      rw [scanLineAux_eq_greedy hk (line.length + 1) 0 (by simp [lower_length])]
      rfl
  · intro recs h
    by_cases hk : k = []
    · subst hk
      rw [searchLine, scanLineAux_nil_keyword _ 0 (Nat.zero_le _)] at h
      exact absurd h (by simp)
    · rw [searchLine] at h
      rcases scanLineAux_bound hk _ _ _ h with rfl | hb
      · simp
      · rw [lower_length] at hb
        omega

/-- Witness for C9: keyword "a" on line "ab" terminates with some fuel. -/
theorem claim_C9_termination_witness :
    ∃ fuel, (scanLineAux 1 ['a'] (lower ['a', 'b']) (pyStrip ['a', 'b']) fuel 0).isSome :=
  (claim_C9_termination 1 ['a'] ['a', 'b']).1.mpr (by decide)

/-- Claim C10 (corrected): each recorded match stores as offset the index
of the occurrence inside the original, untrimmed line (the lowered keyword
occurs at that index in the lowered full line) while the stored text is
the whitespace-trimmed line; with leading whitespace the offset therefore
need not locate the keyword inside the stored text — on line "  abc" with
keyword "abc" the single match is recorded with text "abc" and offset 2,
and the keyword does not occur at offset 2 of "abc".  It may however
coincidentally point at a different occurrence, which refutes the claim's
universal reading (see the counterexample). -/
theorem claim_C10_offsets (k line : List Char) (n : Nat) (recs : List MatchRec)
    (h : searchLine n k line = some recs) :
    (∀ r ∈ recs, occursAt k (lower line) r.position = true ∧ r.text = pyStrip line) ∧
      (searchLine 1 ['a', 'b', 'c'] [' ', ' ', 'a', 'b', 'c'] =
          some [⟨1, ['a', 'b', 'c'], 2⟩] ∧
        occursAt ['a', 'b', 'c'] (lower ['a', 'b', 'c']) 2 = false) := by
  constructor
  · intro r hr
    rw [searchLine] at h
    obtain ⟨h1, h2, _⟩ := scanLineAux_sound _ _ _ h r hr
    exact ⟨h1, h2⟩
  · exact ⟨by decide, by decide⟩

/-- Witness for C10 at line "  abc" with keyword "abc". -/
theorem claim_C10_offsets_witness :
    searchLine 1 ['a', 'b', 'c'] [' ', ' ', 'a', 'b', 'c'] =
        some [⟨1, ['a', 'b', 'c'], 2⟩] ∧
      occursAt ['a', 'b', 'c'] (lower ['a', 'b', 'c']) 2 = false :=
  (claim_C10_offsets ['a', 'b', 'c'] [' ', ' ', 'a', 'b', 'c'] 1
    [⟨1, ['a', 'b', 'c'], 2⟩] (by decide)).2

/-- Counterexample to C10 as stated: on the line " aa" with keyword "a"
the first match has leading whitespace before it and is recorded with text
"aa" and offset 1, yet the keyword does occur at offset 1 of "aa" — the
recorded offset does locate the keyword inside the recorded text. -/
theorem claim_C10_offsets_cex :
    searchLine 1 ['a'] [' ', 'a', 'a'] =
        some [⟨1, ['a', 'a'], 1⟩, ⟨1, ['a', 'a'], 2⟩] ∧
      occursAt ['a'] (lower ['a', 'a']) 1 = true := by
  decide

/-- Claim C8 (confirmed): matching is case-insensitive substring
containment — a line yields at least one record iff the lowered keyword
occurs in the lowered line; lower-casing the keyword once outside the loop
produces exactly the same output as lower-casing it per line; and the file
containing the single line "Hello WORLD" searched with keyword "world"
yields exactly one match (at offset 6). -/
theorem claim_C8_case_insensitive :
    (∀ (k line : List Char) (n : Nat) (recs : List MatchRec), k ≠ [] →
        searchLine n (lower k) line = some recs →
        (recs ≠ [] ↔ ∃ i, occursAt (lower k) (lower line) i = true)) ∧
      (∀ (k : List Char) (n : Nat) (lines : List (List Char)),
        searchLinesAux (lower k) n lines = searchLinesPerLine k n lines) ∧
      search_file fsHello "h" ['w', 'o', 'r', 'l', 'd'] =
        some (some [⟨1, ['H', 'e', 'l', 'l', 'o', ' ', 'W', 'O', 'R', 'L', 'D'], 6⟩]) := by
  refine ⟨?_, ?_, by decide⟩
  · intro k line n recs hk h
    rw [searchLine] at h
    cases hfind : pyFind (lower k) (lower line) 0 with
    | none =>
      simp only [scanLineAux, hfind] at h
      injection h with h
      subst h
      constructor
      · intro hrecs
        exact absurd rfl hrecs
      · rintro ⟨i, hi⟩
        rw [pyFind_none (lower_ne_nil hk) hfind i (Nat.zero_le _)] at hi
        exact absurd hi (by simp)
    | some i =>
      obtain ⟨_, hocc, _⟩ := pyFind_some hfind
      simp only [scanLineAux, hfind] at h
      constructor
      · intro _
        exact ⟨i, hocc⟩
      · intro _
        cases hrec : scanLineAux n (lower k) (lower line) (pyStrip line)
            line.length (i + (lower k).length) with
        | none => rw [hrec] at h; exact absurd h (by simp)
        | some rest =>
          rw [hrec] at h
          simp only [Option.map_some'] at h
          injection h with h
          subst h
          simp
  · intro k n lines
    induction lines generalizing n with
    | nil => rfl
    | cons line rest ih =>
      rw [searchLinesAux, searchLinesPerLine, ih]

/-- Witness for C8: the lowered keyword "world" occurs in the lowered line
"Hello WORLD". -/
theorem claim_C8_case_insensitive_witness :
    ∃ i, occursAt (lower ['w', 'o', 'r', 'l', 'd'])
      (lower ['H', 'e', 'l', 'l', 'o', ' ', 'W', 'O', 'R', 'L', 'D']) i = true :=
  (claim_C8_case_insensitive.1 ['w', 'o', 'r', 'l', 'd']
      ['H', 'e', 'l', 'l', 'o', ' ', 'W', 'O', 'R', 'L', 'D'] 1
      [⟨1, ['H', 'e', 'l', 'l', 'o', ' ', 'W', 'O', 'R', 'L', 'D'], 6⟩]
      (by decide) (by decide)).mp (by decide)

/-! ### Claims about the workers -/

/-- Claim C7 (corrected): in every record emitted by the clean_code worker
(`SearchThread.run`, `clean_code/search_thread.py`) match_count equals the
length of the results sequence, and when the file is unreadable the
results are empty and the count is 0 (that variant's record carries no
error field at all).  The claim as stated fails for the `src/main.py`
worker — see the counterexample. -/
theorem claim_C7_match_count (fs : String → Except String (List (List Char)))
    (window_id : Nat) (filepath : String) (keyword : List Char) (rec : CleanRecord)
    (h : cleanThreadRun fs window_id filepath keyword = some rec) :
    rec.match_count = rec.results.length ∧
      (∀ e, fs filepath = .error e → rec.results = [] ∧ rec.match_count = 0) := by
  rw [cleanThreadRun] at h
  cases hp : perform_search fs filepath keyword with
  | none => rw [hp] at h; exact absurd h (by simp)
  | some rs =>
    rw [hp] at h
    simp only [Option.map_some'] at h
    injection h with h
    subst h
    refine ⟨rfl, ?_⟩
    intro e he
    rw [perform_search, search_file, he] at hp
    simp at hp
    subst hp
    exact ⟨rfl, rfl⟩

/-- Witness for C7: the clean_code worker on an unreadable file. -/
theorem claim_C7_match_count_witness :
    (⟨1, "x", [], 0⟩ : CleanRecord).match_count =
      (⟨1, "x", [], 0⟩ : CleanRecord).results.length :=
  (claim_C7_match_count fsErr 1 "x" ['a'] ⟨1, "x", [], 0⟩ (by decide)).1

/-- Counterexample to C7 as stated: the src/main.py worker on the readable
one-line file "aa" with keyword "a" emits a record whose match_count is 2
(it counts occurrences) while its matches list has length 1 (one matching
line), with no error set. -/
theorem claim_C7_match_count_cex :
    (mainThreadRun fsAA "f" ['a'] 1).match_count ≠
        some (mainThreadRun fsAA "f" ['a'] 1).matchList.length ∧
      (mainThreadRun fsAA "f" ['a'] 1).error = none := by
  decide

/-- Claim C4 (code_bug evidence): for an unreadable path the src/main.py
worker does complete and publish exactly one record with empty matches and
a non-nil error description, but that record omits the match_count key
entirely (modelled as `none`) instead of carrying matchCount = 0 — its own
consumer `process_search_result` reads `result['match_count']`
unconditionally.  The first conjunct is the whole emitted dictionary. -/
theorem claim_C4_read_error :
    mainThreadRun fsErr "missing.txt" ['a'] 1 =
        ⟨1, "missing.txt", [], none, some "No such file or directory"⟩ ∧
      (mainThreadRun fsErr "missing.txt" ['a'] 1).match_count ≠ some 0 := by
  decide

/-! ### Claims about the coordinator and aggregation session -/

/-- Claim C1 (corrected to N ≥ 1): for every non-empty list of N valid
requests (all paths non-empty, stripped keyword non-empty) whose
dispatched workers produce the records `recs` and deliver them in an
arbitrary order `arrival`, exactly N result records are produced (one per
dispatched worker) and exactly one aggregate report is built, whose
results sequence has length N; the `total_windows` value fixed at window
creation equals the number of dispatched requests with a non-empty path.
For N = 0 the claim fails on the code — see the counterexample. -/
theorem claim_C1_session_counts (fs : String → Except String (List (List Char)))
    (file_paths : List String) (keywordRaw : List Char)
    (arrival recs : List CleanRecord)
    (hpaths : ∀ fp ∈ file_paths, fp ≠ "")
    (hkw : pyStrip keywordRaw ≠ [])
    (hne : file_paths ≠ [])
    (hd : initialize_search_threads fs file_paths (pyStrip keywordRaw) = some recs)
    (hp : arrival.Perm recs) :
    recs.length = file_paths.length ∧
      ∃ w, start_parallel_search fs file_paths keywordRaw arrival = some w ∧
        w.all_results.length = file_paths.length ∧
        w.reports_built = 1 ∧
        w.total_windows = recs.length := by
  have hfilter : file_paths.filter (fun fp => decide (fp ≠ "")) = file_paths :=
    List.filter_eq_self.mpr (fun a ha => by simp [hpaths a ha])
  rw [initialize_search_threads] at hd
  have hlen : recs.length = file_paths.length := by
    rw [dispatchAux_length file_paths 0 recs hd, hfilter]
  refine ⟨hlen, ?_⟩
  have hval : validate_search_parameters file_paths keywordRaw = true :=
    validate_eq_true_iff.mpr ⟨hkw, hne⟩
  rw [start_parallel_search, if_pos hval]
  obtain ⟨hT, hC, hA, hR⟩ := foldl_add_search_result arrival (initWindow file_paths.length)
  have harr : arrival.length = recs.length := hp.length_eq
  refine ⟨_, rfl, ?_, ?_, ?_⟩
  · rw [hA]
    simp only [initWindow, List.length_nil]
    omega
  · rw [hR]
    simp only [initWindow]
    have hpos : 0 < file_paths.length := List.length_pos.mpr hne
    rw [if_pos ⟨hpos, by omega⟩]
  · rw [hT]
    simp only [initWindow]
    omega

/-- Witness for C1: one valid request for the readable one-line file
"a" with keyword "a". -/
theorem claim_C1_session_counts_witness :
    ([(⟨1, "f", [⟨1, ['a'], 0⟩], 1⟩ : CleanRecord)]).length = (["f"] : List String).length ∧
      ∃ w, start_parallel_search fsSingleA ["f"] ['a'] [⟨1, "f", [⟨1, ['a'], 0⟩], 1⟩] = some w ∧
        w.all_results.length = (["f"] : List String).length ∧
        w.reports_built = 1 ∧
        w.total_windows = ([(⟨1, "f", [⟨1, ['a'], 0⟩], 1⟩ : CleanRecord)]).length :=
  claim_C1_session_counts fsSingleA ["f"] ['a']
    [⟨1, "f", [⟨1, ['a'], 0⟩], 1⟩] [⟨1, "f", [⟨1, ['a'], 0⟩], 1⟩]
    (by decide) (by decide) (by decide) (by decide) (List.Perm.refl _)

/-- Counterexample to C1 at N = 0: the empty request list (vacuously all
valid) is rejected by validation, so no aggregation window is created and
zero aggregate reports are delivered instead of exactly one. -/
theorem claim_C1_session_counts_cex :
    start_parallel_search fsErr [] ['a'] [] = none ∧
      reportsDelivered fsErr [] ['a'] [] ≠ 1 := by
  decide

/-- Claim C3 (confirmed): within one session (arrivals a permutation of
the dispatched records), `completed_searches` starts at 0 and equals the
number of appended records at every observation point (so each append
increments it by exactly 1), it never exceeds `total_windows`
(= len(file_paths)), and the aggregation trigger has fired at most once
at every observation point. -/
theorem claim_C3_monotone_counter (fs : String → Except String (List (List Char)))
    (file_paths : List String) (keywordRaw : List Char)
    (arrival recs p q : List CleanRecord)
    (hd : initialize_search_threads fs file_paths (pyStrip keywordRaw) = some recs)
    (hp : arrival.Perm recs)
    (hsplit : arrival = p ++ q) :
    (initWindow file_paths.length).completed_searches = 0 ∧
      (p.foldl add_search_result (initWindow file_paths.length)).completed_searches =
        p.length ∧
      (p.foldl add_search_result (initWindow file_paths.length)).completed_searches ≤
        file_paths.length ∧
      (p.foldl add_search_result (initWindow file_paths.length)).reports_built ≤ 1 := by
  obtain ⟨hT, hC, hA, hR⟩ := foldl_add_search_result p (initWindow file_paths.length)
  have hlen1 : recs.length ≤ file_paths.length := by
    rw [initialize_search_threads] at hd
    rw [dispatchAux_length file_paths 0 recs hd]
    exact List.length_filter_le _ _
  have hlen2 : p.length ≤ recs.length := by
    have hl := hp.length_eq
    rw [hsplit] at hl
    simp at hl
    omega
  refine ⟨rfl, ?_, ?_, ?_⟩
  · rw [hC]
    simp [initWindow]
  · rw [hC]
    simp only [initWindow]
    omega
  · rw [hR]
    simp only [initWindow]
    split_ifs <;> omega

/-- Witness for C3: the single-request session observed after its one
arrival. -/
theorem claim_C3_monotone_counter_witness :
    (initWindow (["f"] : List String).length).completed_searches = 0 ∧
      (([(⟨1, "f", [⟨1, ['a'], 0⟩], 1⟩ : CleanRecord)]).foldl add_search_result
          (initWindow (["f"] : List String).length)).completed_searches =
        ([(⟨1, "f", [⟨1, ['a'], 0⟩], 1⟩ : CleanRecord)]).length ∧
      (([(⟨1, "f", [⟨1, ['a'], 0⟩], 1⟩ : CleanRecord)]).foldl add_search_result
          (initWindow (["f"] : List String).length)).completed_searches ≤
        (["f"] : List String).length ∧
      (([(⟨1, "f", [⟨1, ['a'], 0⟩], 1⟩ : CleanRecord)]).foldl add_search_result
          (initWindow (["f"] : List String).length)).reports_built ≤ 1 :=
  claim_C3_monotone_counter fsSingleA ["f"] ['a']
    [⟨1, "f", [⟨1, ['a'], 0⟩], 1⟩] [⟨1, "f", [⟨1, ['a'], 0⟩], 1⟩]
    [⟨1, "f", [⟨1, ['a'], 0⟩], 1⟩] []
    (by decide) (List.Perm.refl _) (by simp)

/-- Claim C5 (corrected): the search fails synchronously — nothing is
started and zero workers are launched — whenever the stripped keyword is
empty or the file_paths list is empty, and this validation precedes any
thread creation.  The code does not reject a non-empty list whose paths
are all empty, which the claim as stated requires — see the
counterexample. -/
theorem claim_C5_validation (fs : String → Except String (List (List Char)))
    (file_paths : List String) (keywordRaw : List Char) (arrival : List CleanRecord)
    (h : pyStrip keywordRaw = [] ∨ file_paths = []) :
    start_parallel_search fs file_paths keywordRaw arrival = none ∧
      workersLaunched file_paths keywordRaw = 0 := by
  have hv := validate_eq_false_of h
  constructor
  · rw [start_parallel_search, if_neg (by simp [hv])]
  · rw [workersLaunched, if_neg (by simp [hv])]

/-- Witness for C5: a whitespace-only keyword strips to empty and is
rejected with zero workers launched. -/
theorem claim_C5_validation_witness :
    start_parallel_search fsErr ["f"] [' '] [] = none ∧
      workersLaunched ["f"] [' '] = 0 :=
  claim_C5_validation fsErr ["f"] [' '] [] (Or.inl (by decide))

/-- Counterexample to C5 as stated: with one window and no file selected
(`file_paths = [""]`) zero requests with a non-empty path remain after
filtering, yet validation succeeds and the search starts — no
NoRequestsError is reported to the caller. -/
theorem claim_C5_validation_cex :
    (((["" ] : List String)).filter (fun fp => decide (fp ≠ ""))).length = 0 ∧
      validate_search_parameters [""] ['x'] = true ∧
      start_parallel_search fsErr [""] ['x'] [] ≠ none := by
  decide

/-- Claim C6 (code_bug evidence): with one window and no file selected the
session passes validation, creates the aggregation window with
total_windows = 1, dispatches zero workers, and after all (zero)
dispatched workers have completed the trigger
`completed_searches == total_windows` has never fired: zero aggregate
reports are delivered, not the promised empty report. -/
theorem claim_C6_degenerate_no_report :
    start_parallel_search fsErr [""] ['x'] [] = some ⟨1, 0, [], 0⟩ ∧
      initialize_search_threads fsErr [""] ['x'] = some [] ∧
      reportsDelivered fsErr [""] ['x'] [] = 0 := by
  decide
